import Mathlib

/-!
Verification development for the kairon training-data import/validation
pipeline and its status/event-tracking state machine.

The repository ships its integration tests
(tests/integration_test/services_test.py) and the data-generation CLI worker
(kairon/cli/training_data_generator.py).  The CLI worker is embedded here
directly from its source.  The validator, tracker, merge engine, dispatcher
and CRUD endpoints are not part of the shipped sources, so they are modelled
from the specification (each such definition carries a doc comment starting
with "Modelled from the spec:"); the shipped integration tests fix the
concrete messages and envelopes used by those models.
-/

namespace Kairon

/-- Step role inside a conversational flow (stories/rules). -/
inductive StepType where
  | INTENT
  | BOT
  | HTTP_ACTION
  | ACTION
  | SLOT_SET_ACTION
deriving DecidableEq, Repr

/-- Flow kind: a story or a rule. -/
inductive FlowType where
  | STORY
  | RULE
deriving DecidableEq, Repr

/-- One element of a flow: a named step tagged with a role. -/
structure Step where
  name : String
  type : StepType
deriving DecidableEq, Repr

/-- Generic API response envelope: success flag, error code, optional
message and optional data payload, as asserted throughout the shipped
integration tests. -/
structure ApiResponse (α : Type) where
  success : Bool
  error_code : Nat
  message : Option String
  data : Option α
deriving DecidableEq, Repr

/-- Message for an empty step sequence. -/
def msgStepsRequired : String := "Steps are required to form Flow"

/-- Message for a flow not starting with an intent. -/
def msgFirstStepIntent : String := "First step should be an intent"

/-- Message for two adjacent intent steps. -/
def msgConsecutiveIntents : String := "Found 2 consecutive intents"

/-- Message for an intent step with no following utterance or action. -/
def msgIntentFollowed : String := "Intent should be followed by utterance or action"

/-- Message for a rule holding more than one intent. -/
def msgRuleMultipleIntents (name : String) : String :=
  "Found rules \x27" ++ name ++ "\x27 that contain more than intent.\nPlease use stories for this case"

/-- Modelled from the spec: true when the first step exists and is an intent. -/
def firstIsIntent : List Step → Bool
  | [] => false
  | s :: _ => s.type == StepType.INTENT

/-- Modelled from the spec: true when some adjacent pair of steps are both intents. -/
def hasConsecutiveIntents : List Step → Bool
  | a :: b :: rest =>
      (a.type == StepType.INTENT && b.type == StepType.INTENT) ||
        hasConsecutiveIntents (b :: rest)
  | _ => false

/-- Modelled from the spec: true when the last step is an intent. -/
def lastIsIntent (steps : List Step) : Bool :=
  match steps.getLast? with
  | some s => s.type == StepType.INTENT
  | none => false

/-- Modelled from the spec: true when some intent step has no next step or is
followed by another intent. -/
def intentNotFollowed : List Step → Bool
  | [] => false
  | [a] => a.type == StepType.INTENT
  | a :: b :: rest =>
      (a.type == StepType.INTENT && b.type == StepType.INTENT) ||
        intentNotFollowed (b :: rest)

/-- Modelled from the spec: number of intent steps in the sequence. -/
def intentCount (steps : List Step) : Nat :=
  (steps.filter (fun s => s.type == StepType.INTENT)).length

/-- Modelled from the spec: the flow grammar validator (component 4.1), which
is not under the shipped sources.  It applies the rules in order and returns
the first violation message, or none when the sequence is accepted. -/
def validateSteps (name : String) (steps : List Step) (ftype : FlowType) : Option String :=
  if steps.isEmpty then some msgStepsRequired
  else if !firstIsIntent steps then some msgFirstStepIntent
  else if hasConsecutiveIntents steps then some msgConsecutiveIntents
  else if intentNotFollowed steps then some msgIntentFollowed
  else if ftype == FlowType.RULE && 1 < intentCount steps then
    some (msgRuleMultipleIntents name)
  else none

/-- Modelled from the spec: the story/rule creation endpoint response.  A
violation is rejected with error code 422 and the violation message; an
accepted sequence yields the success envelope asserted by the tests. -/
def addFlowResponse (name : String) (steps : List Step) (ftype : FlowType) : ApiResponse Unit :=
  match validateSteps name steps ftype with
  | some msg => ⟨false, 422, some msg, none⟩
  | none => ⟨true, 0, some "Flow added successfully", none⟩

/-- Acceptance condition exactly as the claim words it: non-empty, first step
an intent, no two adjacent intents, no intent as last element, and for rules
at most one intent. -/
def ClaimAccepts (steps : List Step) (ftype : FlowType) : Prop :=
  steps ≠ [] ∧
  steps.head?.map Step.type = some StepType.INTENT ∧
  steps.Chain' (fun a b => ¬(a.type = StepType.INTENT ∧ b.type = StepType.INTENT)) ∧
  steps.getLast?.map Step.type ≠ some StepType.INTENT ∧
  (ftype = FlowType.RULE → (steps.map Step.type).count StepType.INTENT ≤ 1)

/-- Lifecycle status of an Event Tracker record (import, training, testing or
generation attempt).  COMPLETED and FAIL are the terminal states. -/
inductive EventStatus where
  | INITIATED
  | TASKSPAWNED
  | INPROGRESS
  | COMPLETED
  | FAIL
deriving DecidableEq, Repr

/-- True for the terminal tracker states. -/
def EventStatus.isTerminal : EventStatus → Bool
  | EventStatus.COMPLETED => true
  | EventStatus.FAIL => true
  | _ => false

/-- Message returned when an activity is already in flight for the bot. -/
def msgAlreadyInProgress : String := "Event already in progress! Check logs."

/-- Modelled from the spec: the tracker state for one bot and one activity
type is the list of its records, newest first; is_in_progress is true iff
the latest record has non-terminal status. -/
def is_in_progress (records : List EventStatus) : Bool :=
  match records with
  | [] => false
  | s :: _ => !s.isTerminal

/-- Modelled from the spec: a trigger request checks is_in_progress first and
fails fast with error code 422 instead of queuing; otherwise it creates a new
in-flight record. -/
def triggerEvent (records : List EventStatus) :
    Except (ApiResponse Unit) (List EventStatus) :=
  if is_in_progress records then
    Except.error ⟨false, 422, some msgAlreadyInProgress, none⟩
  else
    Except.ok (EventStatus.INITIATED :: records)

/-- Tracker operations: a new trigger request, or a status update of the
in-flight record by the running pipeline (set_status on the latest record). -/
inductive TrackerOp where
  | trigger
  | advance (s : EventStatus)

/-- Modelled from the spec: applying one tracker operation to the record
list; a rejected trigger leaves the state unchanged, set_status mutates only
the latest record. -/
def applyOp (records : List EventStatus) : TrackerOp → List EventStatus
  | TrackerOp.trigger =>
      match triggerEvent records with
      | Except.ok r => r
      | Except.error _ => records
  | TrackerOp.advance s =>
      match records with
      | [] => []
      | _ :: rest => s :: rest

/-- Tracker invariant: every record except possibly the latest is terminal. -/
def TrackerInv (records : List EventStatus) : Prop :=
  ∀ s ∈ records.tail, s.isTerminal = true

/-- Number of non-terminal records in the tracker state. -/
def nonTerminalCount (records : List EventStatus) : Nat :=
  (records.filter (fun s => !s.isTerminal)).length

/-- A parsed upload bundle: per category an optional collection of entity
keys; none records a file type absent from the bundle. -/
structure TrainingBundle where
  intents : Option (List String)
  utterances : Option (List String)
  stories : Option (List String)
  rules : Option (List String)
  training_examples : Option (List String)
  http_actions : Option (List String)
deriving DecidableEq, Repr

/-- The persisted per-bot store: one collection per entity category. -/
structure BotStore where
  intents : List String
  utterances : List String
  stories : List String
  rules : List String
  training_examples : List String
  http_actions : List String
deriving DecidableEq, Repr

/-- Modelled from the spec: additive insertion, each incoming entity is
inserted only if not already present; collisions are silently skipped. -/
def addMissing (existing : List String) (incoming : List String) : List String :=
  incoming.foldl (fun acc x => if x ∈ acc then acc else acc ++ [x]) existing

/-- Modelled from the spec: one category of the merge/overwrite engine.
With overwrite the existing collection is fully replaced by the incoming
set before insertion; without it entities are added additively; a category
absent from the bundle is left untouched. -/
def applyCategory (overwrite : Bool) (existing : List String) :
    Option (List String) → List String
  | none => existing
  | some incoming =>
      if overwrite then addMissing [] incoming else addMissing existing incoming

/-- Modelled from the spec: the merge/overwrite engine applied to every
category of the store. -/
def applyBundle (store : BotStore) (bundle : TrainingBundle) (overwrite : Bool) : BotStore :=
  { intents := applyCategory overwrite store.intents bundle.intents
    utterances := applyCategory overwrite store.utterances bundle.utterances
    stories := applyCategory overwrite store.stories bundle.stories
    rules := applyCategory overwrite store.rules bundle.rules
    training_examples := applyCategory overwrite store.training_examples bundle.training_examples
    http_actions := applyCategory overwrite store.http_actions bundle.http_actions }

/-- Persisted entity counts per category, as reported by the import log. -/
def storeCounts (s : BotStore) : List Nat :=
  [s.intents.length, s.utterances.length, s.stories.length,
   s.rules.length, s.training_examples.length, s.http_actions.length]

/-- One name/value pair of the argument vector sent to the external worker. -/
structure TaskArg where
  name : String
  value : String
deriving DecidableEq, Repr

/-- Modelled from the spec: the argument vector carried by the data importer
event call. -/
def importArgs (bot user : String) (importData overwrite : Bool) : List TaskArg :=
  [⟨"BOT", bot⟩, ⟨"USER", user⟩,
   ⟨"IMPORT_DATA", if importData then "--import-data" else ""⟩,
   ⟨"OVERWRITE", if overwrite then "--overwrite" else ""⟩]

/-- The immediate acknowledgment returned by the upload endpoint. -/
def uploadAck : ApiResponse Unit :=
  ⟨true, 0, some "Upload in progress! Check logs.", none⟩

/-- Configuration and tracker state seen by one upload request for a bot. -/
structure ImporterEnv where
  limit_per_day : Nat
  todayCount : Nat
  event_url : Option String
  records : List EventStatus
deriving DecidableEq, Repr

/-- Outcome of one upload request: the synchronous response, the tracker
records after dispatch, and the HTTP call issued to the external worker when
one is configured. -/
structure UploadOutcome where
  response : ApiResponse Unit
  records : List EventStatus
  httpCall : Option (String × List TaskArg)
deriving DecidableEq, Repr

/-- Modelled from the spec: the upload endpoint and event dispatcher.  The
daily-limit and in-progress checks happen before dispatch and surface as 422
errors; an accepted request is answered with the immediate acknowledgment
only — the bundle contents never influence the synchronous response.  With an
external worker configured the dispatcher records TaskSpawned and issues the
event call carrying the argument vector; otherwise the pipeline runs
in-process after the in-flight record is created. -/
def uploadDispatch (env : ImporterEnv) (bot user : String) (_bundle : TrainingBundle)
    (importData overwrite : Bool) : UploadOutcome :=
  if env.limit_per_day ≤ env.todayCount then
    ⟨⟨false, 422, some "Daily limit exceeded.", none⟩, env.records, none⟩
  else if is_in_progress env.records then
    ⟨⟨false, 422, some msgAlreadyInProgress, none⟩, env.records, none⟩
  else
    match env.event_url with
    | some url =>
        ⟨uploadAck, EventStatus.TASKSPAWNED :: env.records,
         some (url, importArgs bot user importData overwrite)⟩
    | none => ⟨uploadAck, EventStatus.INPROGRESS :: env.records, none⟩

/-- Modelled from the spec: the single case-normalization function applied at
every entity-creation boundary; only the lowercased form is stored. -/
def normalizeKey (name : String) : String := name.toLower

/-- Modelled from the spec: insertion of a text key into a persisted
collection; the key is stored case-normalized and duplicates are skipped. -/
def addKey (keys : List String) (name : String) : List String :=
  if normalizeKey name ∈ keys then keys else keys ++ [normalizeKey name]

/-- Modelled from the spec: lookups normalize the requested name before the
exact match against the stored keys. -/
def lookupKey (keys : List String) (name : String) : Bool :=
  decide (normalizeKey name ∈ keys)

/-- Stored text keys of one bot, one collection per entity type. -/
structure EntityStore where
  intents : List String
  utterances : List String
  flows : List String
  regexes : List String
  lookup_tables : List String
  synonyms : List String
  slots : List String
deriving DecidableEq, Repr

/-- Modelled from the spec: intent creation stores the normalized name. -/
def add_intent (st : EntityStore) (name : String) : EntityStore :=
  { st with intents := addKey st.intents name }

/-- Modelled from the spec: utterance creation stores the normalized name. -/
def add_utterance (st : EntityStore) (name : String) : EntityStore :=
  { st with utterances := addKey st.utterances name }

/-- Modelled from the spec: flow creation stores the normalized name. -/
def add_flow (st : EntityStore) (name : String) : EntityStore :=
  { st with flows := addKey st.flows name }

/-- Modelled from the spec: regex creation stores the normalized name. -/
def add_regex (st : EntityStore) (name : String) : EntityStore :=
  { st with regexes := addKey st.regexes name }

/-- Modelled from the spec: lookup-table creation stores the normalized name. -/
def add_lookup_table (st : EntityStore) (name : String) : EntityStore :=
  { st with lookup_tables := addKey st.lookup_tables name }

/-- Modelled from the spec: synonym creation stores the normalized name. -/
def add_synonym (st : EntityStore) (name : String) : EntityStore :=
  { st with synonyms := addKey st.synonyms name }

/-- Modelled from the spec: slot creation stores the normalized name. -/
def add_slot (st : EntityStore) (name : String) : EntityStore :=
  { st with slots := addKey st.slots name }

/-- A key collection is normalized when every stored key is its own
lowercased form. -/
def NormalizedKeys (keys : List String) : Prop :=
  ∀ k ∈ keys, normalizeKey k = k

/-- The global invariant: every collection of the store is normalized. -/
def NormalizedStore (st : EntityStore) : Prop :=
  NormalizedKeys st.intents ∧ NormalizedKeys st.utterances ∧ NormalizedKeys st.flows ∧
  NormalizedKeys st.regexes ∧ NormalizedKeys st.lookup_tables ∧
  NormalizedKeys st.synonyms ∧ NormalizedKeys st.slots

/-- What the claim asserts of a collection after storing a name: the
lowercased key is present, the original casing is absent when it differs,
and lookups by the original or by the lowercased form succeed. -/
def StoredNormalized (ks : List String) (name : String) : Prop :=
  normalizeKey name ∈ ks ∧
  (name ≠ normalizeKey name → name ∉ ks) ∧
  lookupKey ks name = true ∧
  lookupKey ks (normalizeKey name) = true

/-- Per-element result of a batch training-example add: the persisted id, or
none together with the rejection reason. -/
structure ExampleResult where
  example_id : Option Nat
  message : Option String
deriving DecidableEq, Repr

/-- Rejection message for an empty or blank training example. -/
def msgExampleBlank : String := "Training Example cannot be empty or blank spaces"

/-- Rejection message for a duplicate training example under an intent. -/
def msgExampleExists (intent : String) : String :=
  "Training Example exists in intent: [\x27" ++ intent ++ "\x27]"

/-- Success message for a persisted training example. -/
def msgExampleAdded : String := "Training Example added"

/-- Modelled from the spec: a submitted example text is blank when it is
empty or holds only whitespace. -/
def isBlankText (text : String) : Bool :=
  text.data.all (fun c => c == ' ' || c == '\t' || c == '\n' || c == '\r')

/-- Modelled from the spec: adding one training example to the persisted
(intent, text) collection; blank text and duplicate text under the same
intent are rejected per item with a message, otherwise the example is
persisted under a fresh id. -/
def addTrainingExample (store : List (String × String)) (intent text : String)
    (nextId : Nat) : ExampleResult × List (String × String) × Nat :=
  if isBlankText text then
    (⟨none, some msgExampleBlank⟩, store, nextId)
  else if (intent, text) ∈ store then
    (⟨none, some (msgExampleExists intent)⟩, store, nextId)
  else
    (⟨some nextId, some msgExampleAdded⟩, store ++ [(intent, text)], nextId + 1)

/-- Modelled from the spec: the batch add processes every element in order,
collecting one result per element and threading the store through. -/
def addTrainingExamples (store : List (String × String)) (intent : String)
    (nextId : Nat) : List String → List ExampleResult × List (String × String) × Nat
  | [] => ([], store, nextId)
  | t :: ts =>
      let one := addTrainingExample store intent t nextId
      let rest := addTrainingExamples one.2.1 intent one.2.2 ts
      (one.1 :: rest.1, rest.2)

/-- Modelled from the spec: the batch add endpoint always wraps the
per-element results in a successful envelope. -/
def addTrainingExamplesEndpoint (store : List (String × String)) (intent : String)
    (texts : List String) (nextId : Nat) :
    ApiResponse (List ExampleResult) × List (String × String) × Nat :=
  let out := addTrainingExamples store intent nextId texts
  (⟨true, 0, none, some out.1⟩, out.2)

/-- A persisted flow: name, kind and ordered steps. -/
structure Flow where
  name : String
  ftype : FlowType
  steps : List Step
deriving DecidableEq, Repr

/-- Responses and flows of one bot, the state read by response deletion. -/
structure ResponseStore where
  responses : List String
  flows : List Flow
deriving DecidableEq, Repr

/-- Message rejecting deletion of a response referenced by a flow. -/
def msgUtteranceLinked : String := "Cannot remove utterance linked to story"

/-- Modelled from the spec: true when some persisted flow references the
name as a BOT-type step. -/
def utteranceLinkedToStory (d : ResponseStore) (name : String) : Bool :=
  d.flows.any (fun f =>
    f.steps.any (fun s => s.type == StepType.BOT && s.name == name))

/-- Modelled from the spec: response deletion checks the flow back-reference
first and fails with a 422 domain error leaving the store unchanged;
otherwise an existing response is removed. -/
def delete_response (d : ResponseStore) (name : String) :
    ApiResponse Unit × ResponseStore :=
  if utteranceLinkedToStory d name then
    (⟨false, 422, some msgUtteranceLinked, none⟩, d)
  else if name ∈ d.responses then
    (⟨true, 0, some "Utterance removed!", none⟩,
     { d with responses := d.responses.erase name })
  else
    (⟨false, 422, some "Utterance does not exists", none⟩, d)

/-- Status values of TRAINING_DATA_GENERATOR_STATUS used by the worker. -/
inductive TDGStatus where
  | INITIATED
  | INPROGRESS
  | COMPLETED
  | FAIL
deriving DecidableEq, Repr

/-- One generated intent with its training examples and response, as produced
by TrainingDataGenerator.generate_intent. -/
structure TrainingDataItem where
  intent : String
  training_examples : List String
  response : String
deriving DecidableEq, Repr

/-- Body of one processing-status report sent by the worker. -/
structure StatusBody where
  status : TDGStatus
  response : Option (List TrainingDataItem)
  exception : Option String
deriving DecidableEq, Repr

/-- Relative path of the processing-status endpoint used by the worker. -/
def statusPath : String := "/api/bot/processing-status"

/-- Embedding of urljoin for an absolute path: the scheme and authority of
the base are kept and the path replaces the base path. -/
def urljoin (base path : String) : String :=
  match base.splitOn "://" with
  | scheme :: rest :: _ => scheme ++ "://" ++ (rest.splitOn "/").headD "" ++ path
  | _ => path

/-- Configuration read from Utility.environment by the data-generation
worker: the data_generation event_url and kairon_url entries, none when the
entry is missing. -/
structure DataGenEnv where
  event_url : Option String
  kairon_url : Option String
deriving DecidableEq, Repr

/-- Oracle for the fallible collaborator calls of the worker; each call
either returns a value or raises an exception rendered as its string
representation. -/
structure DataGenWorld where
  triggerResult : Except String Unit
  fetchResult : Except String String
  parseResult : String → Except String (List String × List String)
  generateResult : List String × List String → Except String (List TrainingDataItem)

/-- Observable side effects of one worker run. -/
inductive GenEffect where
  | triggeredEvent (bot user token : String)
  | parsedDocument (path : String)
  | httpPut (url : String) (body : StatusBody)
  | setStatus (bot user : String) (status : TDGStatus)
      (response : Option (List TrainingDataItem)) (exception : Option String)
deriving DecidableEq, Repr

/-- Embedding of the InProgress report (source lines 27-35): an HTTP PUT when
kairon_url is set, the local tracker write otherwise. -/
def inProgressReport (env : DataGenEnv) (bot user : String) : GenEffect :=
  match env.kairon_url with
  | some k => GenEffect.httpPut (urljoin k statusPath) ⟨TDGStatus.INPROGRESS, none, none⟩
  | none => GenEffect.setStatus bot user TDGStatus.INPROGRESS none none

/-- Embedding of the Completed report (source lines 40-52): an HTTP PUT
carrying the generated data when kairon_url is set, the local tracker write
otherwise. -/
def completedReport (env : DataGenEnv) (bot user : String)
    (td : List TrainingDataItem) : GenEffect :=
  match env.kairon_url with
  | some k => GenEffect.httpPut (urljoin k statusPath) ⟨TDGStatus.COMPLETED, some td, none⟩
  | none => GenEffect.setStatus bot user TDGStatus.COMPLETED (some td) none

/-- Embedding of the except handler report (source lines 53-62).  The local
kairon_url variable is still None when the exception was raised inside the
event_url branch, so only the combination event_url absent and kairon_url
present produces an HTTP PUT; every other combination writes the local
tracker. -/
def failReport (env : DataGenEnv) (bot user e : String) : GenEffect :=
  match env.event_url, env.kairon_url with
  | none, some k => GenEffect.httpPut (urljoin k statusPath) ⟨TDGStatus.FAIL, none, some e⟩
  | _, _ => GenEffect.setStatus bot user TDGStatus.FAIL none (some e)

/-- Embedding of the try block (source lines 20-52): the effects performed in
order and the exception raised, if any. -/
def runTryBody (env : DataGenEnv) (w : DataGenWorld) (bot user token : String) :
    List GenEffect × Option String :=
  match env.event_url with
  | some _ =>
      match w.triggerResult with
      | Except.ok _ => ([GenEffect.triggeredEvent bot user token], none)
      | Except.error e => ([], some e)
  | none =>
      let inprog := inProgressReport env bot user
      match w.fetchResult with
      | Except.error e => ([inprog], some e)
      | Except.ok docPath =>
          match w.parseResult docPath with
          | Except.error e => ([inprog], some e)
          | Except.ok parsed =>
              match w.generateResult parsed with
              | Except.error e => ([inprog, GenEffect.parsedDocument docPath], some e)
              | Except.ok td =>
                  ([inprog, GenEffect.parsedDocument docPath,
                    completedReport env bot user td], none)

/-- Embedding of parse_document_and_generate_training_data from
kairon/cli/training_data_generator.py: the try body followed by the except
handler rendering any raised exception as a Fail status report.  The
function always returns its effect list normally; no exception escapes. -/
def parse_document_and_generate_training_data (env : DataGenEnv) (w : DataGenWorld)
    (bot user token : String) : List GenEffect :=
  match runTryBody env w bot user token with
  | (effs, none) => effs
  | (effs, some e) => effs ++ [failReport env bot user e]

/-- True when the effect is a Fail status report carrying the exception. -/
def reportsFail (eff : GenEffect) (e : String) : Bool :=
  match eff with
  | GenEffect.httpPut _ body =>
      body.status == TDGStatus.FAIL && body.exception == some e
  | GenEffect.setStatus _ _ st _ exc => st == TDGStatus.FAIL && exc == some e
  | _ => false

/-- True for local tracker writes. -/
def isLocalSetStatus : GenEffect → Bool
  | GenEffect.setStatus _ _ _ _ _ => true
  | _ => false

/-- True for status reports through either channel. -/
def isStatusReport : GenEffect → Bool
  | GenEffect.httpPut _ _ => true
  | GenEffect.setStatus _ _ _ _ _ => true
  | _ => false

/-- Target URL of an HTTP PUT effect, none for other effects. -/
def putUrl : GenEffect → Option String
  | GenEffect.httpPut u _ => some u
  | _ => none

/-- Modelled from the spec: the in-process import/training/testing pipeline
wrapper records the terminal outcome in the Event Tracker instead of
raising — a raised exception becomes the Fail state carrying its string
representation. -/
def pipelineFinalRecord : Except String Unit → EventStatus × String
  | Except.ok _ => (EventStatus.COMPLETED, "")
  | Except.error e => (EventStatus.FAIL, e)

/-- Oracle whose external event trigger raises. -/
def failingTriggerWorld : DataGenWorld :=
  ⟨Except.error "boom", Except.ok "doc.pdf",
   fun _ => Except.ok ([], []), fun _ => Except.ok []⟩

/-- Oracle whose workload fetch raises. -/
def failingFetchWorld : DataGenWorld :=
  ⟨Except.ok (), Except.error "fetch failed",
   fun _ => Except.ok ([], []), fun _ => Except.ok []⟩

/-- Oracle on which every collaborator call succeeds. -/
def okWorld : DataGenWorld :=
  ⟨Except.ok (), Except.ok "doc.pdf",
   fun _ => Except.ok ([], []), fun _ => Except.ok []⟩

-- ===================================================================
-- Theorems
-- ===================================================================

theorem firstIsIntent_iff (steps : List Step) :
    firstIsIntent steps = true ↔ steps.head?.map Step.type = some StepType.INTENT := by
  cases steps with
  | nil => simp [firstIsIntent]
  | cons s rest => simp [firstIsIntent]

theorem hasConsecutiveIntents_false_iff :
    ∀ steps : List Step, hasConsecutiveIntents steps = false ↔
      steps.Chain' (fun a b => ¬(a.type = StepType.INTENT ∧ b.type = StepType.INTENT))
  | [] => by simp [hasConsecutiveIntents]
  | [a] => by simp [hasConsecutiveIntents]
  | a :: b :: rest => by
      have ih := hasConsecutiveIntents_false_iff (b :: rest)
      simp only [hasConsecutiveIntents, Bool.or_eq_false_iff, Bool.and_eq_false_iff,
        List.chain'_cons, ih, beq_eq_false_iff_ne, ne_eq]
      constructor
      · rintro ⟨h1, h2⟩
        refine ⟨fun hc => ?_, h2⟩
        rcases h1 with h1 | h1
        · exact h1 hc.1
        · exact h1 hc.2
      · rintro ⟨h1, h2⟩
        refine ⟨?_, h2⟩
        by_cases ha : a.type = StepType.INTENT
        · right
          intro hb
          exact h1 ⟨ha, hb⟩
        · left
          exact ha

theorem lastIsIntent_false_iff (steps : List Step) :
    lastIsIntent steps = false ↔ steps.getLast?.map Step.type ≠ some StepType.INTENT := by
  cases h : steps.getLast? with
  | none => simp [lastIsIntent, h]
  | some s => simp [lastIsIntent, h]

theorem getLast?_cons_cons (a b : Step) (rest : List Step) :
    (a :: b :: rest).getLast? = (b :: rest).getLast? := by
  simp [List.getLast?_cons_cons]

theorem intentNotFollowed_eq :
    ∀ steps : List Step,
      intentNotFollowed steps = (hasConsecutiveIntents steps || lastIsIntent steps)
  | [] => by simp [intentNotFollowed, hasConsecutiveIntents, lastIsIntent]
  | [a] => by simp [intentNotFollowed, hasConsecutiveIntents, lastIsIntent]
  | a :: b :: rest => by
      have ih := intentNotFollowed_eq (b :: rest)
      have hlast : lastIsIntent (a :: b :: rest) = lastIsIntent (b :: rest) := by
        simp [lastIsIntent, List.getLast?_cons_cons]
      simp only [intentNotFollowed, hasConsecutiveIntents, ih, hlast, Bool.or_assoc]

theorem intentCount_eq_count (steps : List Step) :
    intentCount steps = (steps.map Step.type).count StepType.INTENT := by
  induction steps with
  | nil => simp [intentCount]
  | cons s rest ih =>
      simp only [intentCount, List.filter_cons, List.map_cons, List.count_cons] at ih ⊢
      cases hb : (s.type == StepType.INTENT) <;> simp [hb, ih]

theorem validateSteps_eq_none_iff (name : String) (steps : List Step) (ftype : FlowType) :
    validateSteps name steps ftype = none ↔ ClaimAccepts steps ftype := by
  unfold validateSteps ClaimAccepts
  by_cases hempty : steps = []
  · subst hempty
    simp
  · have hne : steps.isEmpty = false := by
      simpa [List.isEmpty_iff] using hempty
    rw [hne]
    simp only [Bool.false_eq_true, if_false]
    by_cases hfirst : firstIsIntent steps = true
    case neg =>
      have hfirstF : firstIsIntent steps = false := by
        simpa using hfirst
      rw [hfirstF]
      simp only [Bool.not_false, if_true]
      constructor
      · intro h
        exact absurd h (by simp)
      · rintro ⟨-, hhead, -, -, -⟩
        rw [← firstIsIntent_iff, hfirstF] at hhead
        exact absurd hhead (by simp)
    case pos =>
      rw [hfirst]
      simp only [Bool.not_true, Bool.false_eq_true, if_false]
      by_cases hcons : hasConsecutiveIntents steps = true
      · rw [hcons]
        simp only [if_true]
        constructor
        · intro h
          exact absurd h (by simp)
        · rintro ⟨-, -, hchain, -, -⟩
          rw [← hasConsecutiveIntents_false_iff] at hchain
          rw [hcons] at hchain
          exact absurd hchain (by simp)
      · have hconsF : hasConsecutiveIntents steps = false := by
          simpa using hcons
        rw [hconsF]
        simp only [Bool.false_eq_true, if_false]
        rw [intentNotFollowed_eq, hconsF, Bool.false_or]
        by_cases hlast : lastIsIntent steps = true
        · rw [hlast]
          simp only [if_true]
          constructor
          · intro h
            exact absurd h (by simp)
          · rintro ⟨-, -, -, hl, -⟩
            rw [← lastIsIntent_false_iff, hlast] at hl
            exact absurd hl (by simp)
        · have hlastF : lastIsIntent steps = false := by
            simpa using hlast
          rw [hlastF]
          simp only [Bool.false_eq_true, if_false]
          by_cases hrule : ftype = FlowType.RULE ∧ 1 < intentCount steps
          · have hb : (ftype == FlowType.RULE && decide (1 < intentCount steps)) = true := by
              simp [hrule.1, hrule.2]
            rw [hb]
            simp only [if_true]
            constructor
            · intro h
              exact absurd h (by simp)
            · rintro ⟨-, -, -, -, hcnt⟩
              have := hcnt hrule.1
              rw [← intentCount_eq_count] at this
              omega
          · have hb : (ftype == FlowType.RULE && decide (1 < intentCount steps)) = false := by
              rcases Decidable.not_and_iff_or_not.mp hrule with h | h
              · simp [h]
              · have hd : decide (1 < intentCount steps) = false := by
                  simpa using h
                simp [hd]
            rw [hb]
            simp only [Bool.false_eq_true, if_false, true_iff]
            refine ⟨hempty, (firstIsIntent_iff steps).mp hfirst,
              (hasConsecutiveIntents_false_iff steps).mp hconsF,
              (lastIsIntent_false_iff steps).mp hlastF, ?_⟩
            intro hft
            rw [← intentCount_eq_count]
            rcases Decidable.not_and_iff_or_not.mp hrule with h | h
            · exact absurd hft h
            · omega

/-- C1: a flow step sequence submitted to the story/rule creation endpoint is
accepted iff it is non-empty, starts with an intent, has no two adjacent
intents, has no intent as its last element and, for rules, holds at most one
intent; each violation is rejected with error code 422 and its distinct
message, while consecutive non-intent steps are accepted. -/
theorem c1_flow_grammar_validator (name : String) (steps : List Step) (ftype : FlowType) :
    ((addFlowResponse name steps ftype).success = true ↔ ClaimAccepts steps ftype) ∧
    (¬ ClaimAccepts steps ftype → (addFlowResponse name steps ftype).error_code = 422) ∧
    (ClaimAccepts steps ftype →
      addFlowResponse name steps ftype = ⟨true, 0, some "Flow added successfully", none⟩) ∧
    (steps = [] →
      addFlowResponse name steps ftype = ⟨false, 422, some msgStepsRequired, none⟩) ∧
    (steps ≠ [] → firstIsIntent steps = false →
      addFlowResponse name steps ftype = ⟨false, 422, some msgFirstStepIntent, none⟩) ∧
    (firstIsIntent steps = true → hasConsecutiveIntents steps = true →
      addFlowResponse name steps ftype = ⟨false, 422, some msgConsecutiveIntents, none⟩) ∧
    (firstIsIntent steps = true → hasConsecutiveIntents steps = false →
      lastIsIntent steps = true →
      addFlowResponse name steps ftype = ⟨false, 422, some msgIntentFollowed, none⟩) ∧
    (firstIsIntent steps = true → hasConsecutiveIntents steps = false →
      lastIsIntent steps = false → ftype = FlowType.RULE → 1 < intentCount steps →
      addFlowResponse name steps ftype =
        ⟨false, 422, some (msgRuleMultipleIntents name), none⟩) := by
  have hiff := validateSteps_eq_none_iff name steps ftype
  refine ⟨?_, ?_, ?_, ?_, ?_, ?_, ?_, ?_⟩
  · unfold addFlowResponse
    cases h : validateSteps name steps ftype with
    | none =>
        simp only [h] at hiff
        simpa using hiff
    | some msg =>
        rw [h] at hiff
        simp only []
        constructor
        · intro hs
          exact absurd hs (by simp)
        · intro hacc
          exact absurd (hiff.mpr hacc) (by simp)
  · intro hnacc
    unfold addFlowResponse
    cases h : validateSteps name steps ftype with
    | none =>
        rw [h] at hiff
        exact absurd (hiff.mp rfl) hnacc
    | some msg => rfl
  · intro hacc
    unfold addFlowResponse
    rw [hiff.mpr hacc]
  · intro he
    subst he
    rfl
  · intro hne hfirst
    unfold addFlowResponse validateSteps
    have hempty : steps.isEmpty = false := by
      simpa [List.isEmpty_iff] using hne
    rw [hempty, hfirst]
    rfl
  · intro hfirst hcons
    unfold addFlowResponse validateSteps
    have hne : steps ≠ [] := by
      intro he
      rw [he] at hfirst
      simp [firstIsIntent] at hfirst
    have hempty : steps.isEmpty = false := by
      simpa [List.isEmpty_iff] using hne
    rw [hempty, hfirst, hcons]
    rfl
  · intro hfirst hcons hlast
    unfold addFlowResponse validateSteps
    have hne : steps ≠ [] := by
      intro he
      rw [he] at hfirst
      simp [firstIsIntent] at hfirst
    have hempty : steps.isEmpty = false := by
      simpa [List.isEmpty_iff] using hne
    have hnf : intentNotFollowed steps = true := by
      rw [intentNotFollowed_eq, hcons, hlast]
      rfl
    rw [hempty, hfirst, hcons, hnf]
    rfl
  · intro hfirst hcons hlast hft hcnt
    unfold addFlowResponse validateSteps
    have hne : steps ≠ [] := by
      intro he
      rw [he] at hfirst
      simp [firstIsIntent] at hfirst
    have hempty : steps.isEmpty = false := by
      simpa [List.isEmpty_iff] using hne
    have hnf : intentNotFollowed steps = false := by
      rw [intentNotFollowed_eq, hcons, hlast]
      rfl
    have hb : (ftype == FlowType.RULE && decide (1 < intentCount steps)) = true := by
      simp [hft, hcnt]
    rw [hempty, hfirst, hcons, hnf, hb]
    rfl

/-- Witness for C1 at concrete inputs: a story with two consecutive
HTTP action steps is accepted, and the empty sequence is rejected with
error 422 and the required message. -/
theorem c1_flow_grammar_validator_witness :
    (addFlowResponse "s"
      [⟨"greet", StepType.INTENT⟩, ⟨"a", StepType.HTTP_ACTION⟩, ⟨"b", StepType.HTTP_ACTION⟩]
      FlowType.STORY).success = true ∧
    addFlowResponse "s" [] FlowType.STORY = ⟨false, 422, some msgStepsRequired, none⟩ :=
  ⟨(c1_flow_grammar_validator "s"
      [⟨"greet", StepType.INTENT⟩, ⟨"a", StepType.HTTP_ACTION⟩, ⟨"b", StepType.HTTP_ACTION⟩]
      FlowType.STORY).1.mpr
      (by
        unfold ClaimAccepts
        refine ⟨by decide, by decide, ?_, by decide, by decide⟩
        simp [List.chain'_cons]),
   (c1_flow_grammar_validator "s" [] FlowType.STORY).2.2.2.1 rfl⟩

theorem trackerInv_nonTerminalCount_le_one (records : List EventStatus)
    (h : TrackerInv records) : nonTerminalCount records ≤ 1 := by
  cases records with
  | nil => simp [nonTerminalCount]
  | cons s rest =>
      have hrest : rest.filter (fun s => !s.isTerminal) = [] := by
        rw [List.filter_eq_nil_iff]
        intro a ha
        have := h a (by simpa using ha)
        simp [this]
      unfold nonTerminalCount
      rw [List.filter_cons]
      cases hb : (!s.isTerminal) <;> simp [hrest]

theorem trackerInv_applyOp (records : List EventStatus) (h : TrackerInv records)
    (op : TrackerOp) : TrackerInv (applyOp records op) := by
  cases op with
  | trigger =>
      unfold applyOp triggerEvent
      by_cases hp : is_in_progress records = true
      · rw [if_pos hp]
        exact h
      · have hpF : is_in_progress records = false := by
          simpa using hp
        rw [hpF]
        simp only [Bool.false_eq_true, if_false]
        intro a ha
        cases records with
        | nil => simp at ha
        | cons s rest =>
            have hs : s.isTerminal = true := by
              unfold is_in_progress at hpF
              simpa using hpF
            simp only [List.tail_cons] at ha
            rcases List.mem_cons.mp ha with rfl | hmem
            · exact hs
            · exact h a (by simpa using hmem)
  | advance s =>
      cases records with
      | nil => exact h
      | cons t rest =>
          unfold applyOp
          intro a ha
          exact h a (by simpa using ha)

/-- C2: for every bot at most one non-terminal tracker record of an activity
type exists at a time; every tracker operation preserves this, and a trigger
issued while the latest record is non-terminal fails fast with error code 422
and the already-in-progress message instead of creating a second in-flight
record. -/
theorem c2_single_inflight_record (records : List EventStatus) (h : TrackerInv records) :
    nonTerminalCount records ≤ 1 ∧
    (∀ op, TrackerInv (applyOp records op)) ∧
    (∀ op, nonTerminalCount (applyOp records op) ≤ 1) ∧
    (is_in_progress records = true →
      triggerEvent records = Except.error ⟨false, 422, some msgAlreadyInProgress, none⟩) := by
  refine ⟨trackerInv_nonTerminalCount_le_one records h,
    fun op => trackerInv_applyOp records h op,
    fun op => trackerInv_nonTerminalCount_le_one _ (trackerInv_applyOp records h op),
    ?_⟩
  intro hp
  unfold triggerEvent
  rw [if_pos hp]

/-- Witness for C2: a tracker whose latest record is in progress rejects a
new trigger with the 422 envelope and satisfies the invariant bounds. -/
theorem c2_single_inflight_record_witness :
    nonTerminalCount [EventStatus.INPROGRESS, EventStatus.COMPLETED] ≤ 1 ∧
    triggerEvent [EventStatus.INPROGRESS, EventStatus.COMPLETED] =
      Except.error ⟨false, 422, some msgAlreadyInProgress, none⟩ :=
  have h := c2_single_inflight_record [EventStatus.INPROGRESS, EventStatus.COMPLETED]
    (by intro s hs; simp [TrackerInv] at hs; simp [hs, EventStatus.isTerminal])
  ⟨h.1, h.2.2.2 (by decide)⟩

theorem applyCategory_overwrite_idem (existing : List String)
    (incoming : Option (List String)) :
    applyCategory true (applyCategory true existing incoming) incoming =
      applyCategory true existing incoming := by
  cases incoming with
  | none => rfl
  | some l => rfl

/-- C3: the merge/overwrite engine is idempotent under destructive
re-application; applying the identical bundle twice with overwrite yields the
same persisted store, hence identical entity counts in every category. -/
theorem c3_overwrite_idempotent (store : BotStore) (bundle : TrainingBundle) :
    applyBundle (applyBundle store bundle true) bundle true =
      applyBundle store bundle true ∧
    storeCounts (applyBundle (applyBundle store bundle true) bundle true) =
      storeCounts (applyBundle store bundle true) := by
  have h : applyBundle (applyBundle store bundle true) bundle true =
      applyBundle store bundle true := by
    unfold applyBundle
    simp only [applyCategory_overwrite_idem]
  exact ⟨h, by rw [h]⟩

/-- C4: every upload request accepted by the upload endpoint is answered with
the immediate acknowledgment — message Upload in progress! Check logs., data
null, success true, error code 0 — and never with a validation result: the
response is the same whatever bundle is uploaded. -/
theorem c4_upload_always_ack (env : ImporterEnv) (bot user : String)
    (b1 b2 : TrainingBundle) (i1 o1 i2 o2 : Bool)
    (h : (uploadDispatch env bot user b1 i1 o1).response.success = true) :
    (uploadDispatch env bot user b1 i1 o1).response =
      ⟨true, 0, some "Upload in progress! Check logs.", none⟩ ∧
    (uploadDispatch env bot user b1 i1 o1).response =
      (uploadDispatch env bot user b2 i2 o2).response := by
  unfold uploadDispatch at *
  by_cases hl : env.limit_per_day ≤ env.todayCount
  · rw [if_pos hl] at h
    exact absurd h (by simp)
  · simp only [if_neg hl] at h ⊢
    by_cases hp : is_in_progress env.records = true
    · rw [if_pos hp] at h
      exact absurd h (by simp)
    · have hpF : is_in_progress env.records = false := by
        simpa using hp
      simp only [hpF, Bool.false_eq_true, if_false] at h ⊢
      cases env.event_url with
      | some url => exact ⟨rfl, rfl⟩
      | none => exact ⟨rfl, rfl⟩

/-- Witness for C4 at a concrete accepted request: the response is the
acknowledgment envelope for two different bundles. -/
theorem c4_upload_always_ack_witness :
    (uploadDispatch ⟨5, 0, none, []⟩ "bot" "user"
        ⟨some ["a"], none, none, none, none, none⟩ true true).response =
      ⟨true, 0, some "Upload in progress! Check logs.", none⟩ :=
  (c4_upload_always_ack ⟨5, 0, none, []⟩ "bot" "user"
    ⟨some ["a"], none, none, none, none, none⟩
    ⟨none, none, none, none, none, none⟩ true true false false (by decide)).1

/-- C5: with an external worker event URL configured, an accepted upload
dispatch issues the HTTP call whose body is exactly the four-element argument
vector BOT, USER, IMPORT_DATA, OVERWRITE, marks the tracker record
TaskSpawned, and answers with the immediate acknowledgment. -/
theorem c5_event_dispatch_args (env : ImporterEnv) (url bot user : String)
    (bundle : TrainingBundle) (importData overwrite : Bool)
    (hurl : env.event_url = some url)
    (hlimit : env.todayCount < env.limit_per_day)
    (hprog : is_in_progress env.records = false) :
    uploadDispatch env bot user bundle importData overwrite =
      ⟨⟨true, 0, some "Upload in progress! Check logs.", none⟩,
       EventStatus.TASKSPAWNED :: env.records,
       some (url,
         [⟨"BOT", bot⟩, ⟨"USER", user⟩,
          ⟨"IMPORT_DATA", if importData then "--import-data" else ""⟩,
          ⟨"OVERWRITE", if overwrite then "--overwrite" else ""⟩])⟩ := by
  unfold uploadDispatch
  rw [if_neg (by omega), hprog]
  simp only [Bool.false_eq_true, if_false, hurl]
  rfl

/-- Witness for C5 at a concrete configured environment: the overwrite import
dispatch carries the argument vector asserted by the worker-event tests. -/
theorem c5_event_dispatch_args_witness :
    uploadDispatch ⟨5, 0, some "http://localhost/upload", []⟩ "bot1" "user1"
        ⟨none, none, none, none, none, none⟩ true true =
      ⟨⟨true, 0, some "Upload in progress! Check logs.", none⟩,
       [EventStatus.TASKSPAWNED],
       some ("http://localhost/upload",
         [⟨"BOT", "bot1"⟩, ⟨"USER", "user1"⟩,
          ⟨"IMPORT_DATA", "--import-data"⟩, ⟨"OVERWRITE", "--overwrite"⟩])⟩ := by
  have h := c5_event_dispatch_args ⟨5, 0, some "http://localhost/upload", []⟩
    "http://localhost/upload" "bot1" "user1" ⟨none, none, none, none, none, none⟩
    true true rfl (by decide) (by decide)
  simpa using h

theorem char_toLower_idem (c : Char) : c.toLower.toLower = c.toLower := by
  unfold Char.toLower
  by_cases h : 65 ≤ c.toNat ∧ c.toNat ≤ 90
  · rw [if_pos h]
    have hv : (c.toNat + 32).isValidChar := by
      left
      omega
    have ht : (Char.ofNat (c.toNat + 32)).toNat = c.toNat + 32 := by
      rw [Char.ofNat, dif_pos hv]
      simp [Char.ofNatAux, Char.toNat, UInt32.toNat, BitVec.toNat_ofNatLt]
    rw [if_neg]
    rw [ht]
    omega
  · rw [if_neg h, if_neg h]

theorem normalizeKey_idem (s : String) :
    normalizeKey (normalizeKey s) = normalizeKey s := by
  unfold normalizeKey String.toLower
  rw [String.map_eq, String.map_eq]
  congr 1
  show List.map Char.toLower (List.map Char.toLower s.data) = List.map Char.toLower s.data
  rw [List.map_map]
  refine List.map_congr_left ?_
  intro a _
  exact char_toLower_idem a

theorem addKey_spec (keys : List String) (name : String) (h : NormalizedKeys keys) :
    StoredNormalized (addKey keys name) name ∧ NormalizedKeys (addKey keys name) := by
  have hmem : normalizeKey name ∈ addKey keys name := by
    unfold addKey
    by_cases hk : normalizeKey name ∈ keys
    · rw [if_pos hk]
      exact hk
    · rw [if_neg hk]
      simp
  refine ⟨⟨hmem, ?_, ?_, ?_⟩, ?_⟩
  · intro hne hmem2
    unfold addKey at hmem2
    by_cases hk : normalizeKey name ∈ keys
    · rw [if_pos hk] at hmem2
      exact hne (h name hmem2).symm
    · rw [if_neg hk] at hmem2
      rcases List.mem_append.mp hmem2 with hm | hm
      · exact hne (h name hm).symm
      · simp only [List.mem_singleton] at hm
        exact hne hm
  · unfold lookupKey
    simpa using hmem
  · unfold lookupKey
    rw [normalizeKey_idem]
    simpa using hmem
  · intro k hk
    unfold addKey at hk
    by_cases hk2 : normalizeKey name ∈ keys
    · rw [if_pos hk2] at hk
      exact h k hk
    · rw [if_neg hk2] at hk
      rcases List.mem_append.mp hk with hm | hm
      · exact h k hm
      · simp only [List.mem_singleton] at hm
        rw [hm]
        exact normalizeKey_idem name

/-- C7: all text keys are stored case-normalized to lowercase with the
original casing discarded, across every entity type — intents, utterances,
flows, regexes, lookup tables, synonyms and slots: after creation the
lowercased key is stored, the differing original form is absent, and lookup
via the lowercased form succeeds. -/
theorem c7_keys_case_normalized (st : EntityStore) (name : String)
    (h : NormalizedStore st) :
    StoredNormalized (add_intent st name).intents name ∧
    StoredNormalized (add_utterance st name).utterances name ∧
    StoredNormalized (add_flow st name).flows name ∧
    StoredNormalized (add_regex st name).regexes name ∧
    StoredNormalized (add_lookup_table st name).lookup_tables name ∧
    StoredNormalized (add_synonym st name).synonyms name ∧
    StoredNormalized (add_slot st name).slots name ∧
    NormalizedStore (add_intent st name) := by
  obtain ⟨h1, h2, h3, h4, h5, h6, h7⟩ := h
  exact ⟨(addKey_spec st.intents name h1).1,
    (addKey_spec st.utterances name h2).1,
    (addKey_spec st.flows name h3).1,
    (addKey_spec st.regexes name h4).1,
    (addKey_spec st.lookup_tables name h5).1,
    (addKey_spec st.synonyms name h6).1,
    (addKey_spec st.slots name h7).1,
    (addKey_spec st.intents name h1).2, h2, h3, h4, h5, h6, h7⟩

/-- Witness for C7: creating the intent CASE_INSENSITIVE_INTENT on an empty
store stores exactly the lowercased key, the uppercase form is absent, and
the lowercased lookup succeeds. -/
theorem c7_keys_case_normalized_witness :
    StoredNormalized
      (add_intent ⟨[], [], [], [], [], [], []⟩ "CASE_INSENSITIVE_INTENT").intents
      "CASE_INSENSITIVE_INTENT" ∧
    normalizeKey "CASE_INSENSITIVE_INTENT" = "case_insensitive_intent" :=
  ⟨(c7_keys_case_normalized ⟨[], [], [], [], [], [], []⟩ "CASE_INSENSITIVE_INTENT"
      (by
        refine ⟨?_, ?_, ?_, ?_, ?_, ?_, ?_⟩ <;>
          intro k hk <;> simp at hk)).1,
   by
    rw [normalizeKey, String.toLower, String.map_eq]
    decide⟩

theorem addTrainingExamples_length (intent : String) :
    ∀ (texts : List String) (store : List (String × String)) (nextId : Nat),
      (addTrainingExamples store intent nextId texts).1.length = texts.length
  | [], store, nextId => rfl
  | t :: ts, store, nextId => by
      unfold addTrainingExamples
      simp only [List.length_cons]
      rw [addTrainingExamples_length intent ts]

theorem addTrainingExamples_mem (intent : String) :
    ∀ (texts : List String) (store : List (String × String)) (nextId : Nat),
      ∀ r ∈ (addTrainingExamples store intent nextId texts).1,
        (r.example_id = none ∧
          (r.message = some msgExampleBlank ∨
           r.message = some (msgExampleExists intent))) ∨
        (∃ i, r.example_id = some i ∧ r.message = some msgExampleAdded)
  | [], store, nextId => by
      intro r hr
      simp [addTrainingExamples] at hr
  | t :: ts, store, nextId => by
      intro r hr
      unfold addTrainingExamples at hr
      simp only [List.mem_cons] at hr
      rcases hr with rfl | hr
      · unfold addTrainingExample
        by_cases h1 : isBlankText t = true
        · rw [if_pos h1]
          left
          exact ⟨rfl, Or.inl rfl⟩
        · rw [if_neg h1]
          by_cases h2 : (intent, t) ∈ store
          · rw [if_pos h2]
            left
            exact ⟨rfl, Or.inr rfl⟩
          · rw [if_neg h2]
            right
            exact ⟨nextId, rfl, rfl⟩
      · exact addTrainingExamples_mem intent ts _ _ r hr

/-- C8: a batch add of N training examples returns a per-element result list
inside a successful envelope (success true, error code 0): each element
carries either a fresh id with the success message or a null id with the
duplicate or blank rejection reason, and a rejected item never aborts the
batch — the result list always has one entry per submitted example. -/
theorem c8_batch_training_examples (store : List (String × String)) (intent : String)
    (texts : List String) (nextId : Nat) :
    (addTrainingExamplesEndpoint store intent texts nextId).1.success = true ∧
    (addTrainingExamplesEndpoint store intent texts nextId).1.error_code = 0 ∧
    (addTrainingExamplesEndpoint store intent texts nextId).1.data =
      some (addTrainingExamples store intent nextId texts).1 ∧
    (addTrainingExamples store intent nextId texts).1.length = texts.length ∧
    (∀ r ∈ (addTrainingExamples store intent nextId texts).1,
      (r.example_id = none ∧
        (r.message = some msgExampleBlank ∨
         r.message = some (msgExampleExists intent))) ∨
      (∃ i, r.example_id = some i ∧ r.message = some msgExampleAdded)) :=
  ⟨rfl, rfl, rfl, addTrainingExamples_length intent texts store nextId,
   addTrainingExamples_mem intent texts store nextId⟩

/-- Witness for C8: a batch holding a fresh text, a duplicate and a blank
yields three per-element results in a successful envelope, the duplicate and
blank each rejected with a null id. -/
theorem c8_batch_training_examples_witness :
    (addTrainingExamplesEndpoint [("greet", "hi")] "greet"
        ["How do you do?", "hi", ""] 0).1.success = true ∧
    (addTrainingExamples [("greet", "hi")] "greet" 0
        ["How do you do?", "hi", ""]).1.length = 3 ∧
    ((⟨none, some (msgExampleExists "greet")⟩ : ExampleResult).example_id = none ∧
      ((⟨none, some (msgExampleExists "greet")⟩ : ExampleResult).message =
          some msgExampleBlank ∨
       (⟨none, some (msgExampleExists "greet")⟩ : ExampleResult).message =
          some (msgExampleExists "greet")) ∨
     (∃ i, (⟨none, some (msgExampleExists "greet")⟩ : ExampleResult).example_id = some i ∧
       (⟨none, some (msgExampleExists "greet")⟩ : ExampleResult).message =
          some msgExampleAdded)) := by
  have h := c8_batch_training_examples [("greet", "hi")] "greet"
    ["How do you do?", "hi", ""] 0
  refine ⟨h.1, h.2.2.2.1, ?_⟩
  have hm := h.2.2.2.2 ⟨none, some (msgExampleExists "greet")⟩ (by decide)
  rcases hm with ⟨ha, hb⟩ | hc
  · exact Or.inl ⟨ha, hb⟩
  · exact Or.inr hc

/-- C9: deleting a response whose name is referenced by a persisted flow step
of type BOT fails with error code 422 and the linked-utterance message and
leaves the response in place; deleting a response with no such back-reference
succeeds and removes it. -/
theorem c9_delete_response_backref (d : ResponseStore) (name : String) :
    (utteranceLinkedToStory d name = true →
      delete_response d name = (⟨false, 422, some msgUtteranceLinked, none⟩, d)) ∧
    (utteranceLinkedToStory d name = false → name ∈ d.responses →
      (delete_response d name).1 = ⟨true, 0, some "Utterance removed!", none⟩ ∧
      (delete_response d name).2.responses = d.responses.erase name) := by
  constructor
  · intro hlink
    unfold delete_response
    rw [if_pos hlink]
  · intro hlink hmem
    unfold delete_response
    rw [hlink]
    simp only [Bool.false_eq_true, if_false, if_pos hmem]
    exact ⟨trivial, trivial⟩

/-- Witness for C9: with a story referencing utter_greet as a BOT step its
deletion returns the 422 envelope and the unchanged store, while deleting an
unreferenced response succeeds. -/
theorem c9_delete_response_backref_witness :
    delete_response
        ⟨["utter_greet"], [⟨"story1", FlowType.STORY,
          [⟨"greet", StepType.INTENT⟩, ⟨"utter_greet", StepType.BOT⟩]⟩]⟩ "utter_greet" =
      (⟨false, 422, some msgUtteranceLinked, none⟩,
       ⟨["utter_greet"], [⟨"story1", FlowType.STORY,
          [⟨"greet", StepType.INTENT⟩, ⟨"utter_greet", StepType.BOT⟩]⟩]⟩) ∧
    (delete_response ⟨["utter_remove_utterance"], []⟩ "utter_remove_utterance").1 =
      ⟨true, 0, some "Utterance removed!", none⟩ :=
  ⟨(c9_delete_response_backref
      ⟨["utter_greet"], [⟨"story1", FlowType.STORY,
        [⟨"greet", StepType.INTENT⟩, ⟨"utter_greet", StepType.BOT⟩]⟩]⟩ "utter_greet").1
      (by decide),
   ((c9_delete_response_backref ⟨["utter_remove_utterance"], []⟩ "utter_remove_utterance").2
      (by decide) (by decide)).1⟩

/-- C6: an exception raised during a pipeline run is never surfaced
synchronously past the initial acknowledgment: the embedded data-generation
worker returns normally with its effects followed by a terminal Fail report
carrying the exception string, and the spec-modelled in-process pipeline
wrapper likewise records Fail with the exception instead of raising. -/
theorem c6_pipeline_error_captured (env : DataGenEnv) (w : DataGenWorld)
    (bot user token e : String)
    (h : (runTryBody env w bot user token).2 = some e) :
    parse_document_and_generate_training_data env w bot user token =
      (runTryBody env w bot user token).1 ++ [failReport env bot user e] ∧
    reportsFail (failReport env bot user e) e = true ∧
    pipelineFinalRecord (Except.error e) = (EventStatus.FAIL, e) := by
  refine ⟨?_, ?_, rfl⟩
  · unfold parse_document_and_generate_training_data
    rcases hr : runTryBody env w bot user token with ⟨effs, exc⟩
    rw [hr] at h
    have hexc : exc = some e := h
    subst hexc
    rfl
  · rcases env with ⟨eu, ku⟩
    cases eu <;> cases ku <;> simp [failReport, reportsFail]

/-- Witness for C6: with no worker URLs configured and a failing workload
fetch, the run ends with a local tracker write in the Fail state carrying the
exception string. -/
theorem c6_pipeline_error_captured_witness :
    parse_document_and_generate_training_data ⟨none, none⟩ failingFetchWorld "b" "u" "t" =
      [GenEffect.setStatus "b" "u" TDGStatus.INPROGRESS none none,
       GenEffect.setStatus "b" "u" TDGStatus.FAIL none (some "fetch failed")] ∧
    reportsFail (failReport ⟨none, none⟩ "b" "u" "fetch failed") "fetch failed" = true := by
  have h := c6_pipeline_error_captured ⟨none, none⟩ failingFetchWorld "b" "u" "t"
    "fetch failed" rfl
  refine ⟨?_, h.2.1⟩
  rw [h.1]
  rfl

/-- C10 counterexample: with an event_url configured and the external trigger
raising, the worker does write the local tracker — a set_status in the Fail
state — because the local kairon_url variable is still unset in the except
handler; so the claim that with an event_url the function performs no status
write itself, and that the local tracker is written only when neither URL is
configured, is false at this input. -/
theorem c10_counterexample_local_write_with_event_url :
    parse_document_and_generate_training_data ⟨some "http://event.url", none⟩
        failingTriggerWorld "b" "u" "t" =
      [GenEffect.setStatus "b" "u" TDGStatus.FAIL none (some "boom")] ∧
    isLocalSetStatus (GenEffect.setStatus "b" "u" TDGStatus.FAIL none (some "boom")) = true :=
  ⟨rfl, rfl⟩

/-- C10 (amended): with an event_url the worker only triggers the external
event and performs no parsing, and in the non-exceptional path no status
write; if the trigger raises, the failure is written to the local tracker.
With a kairon_url every status report is an HTTP PUT to the URL joined from
kairon_url and the processing-status path and the local tracker is never
written.  With neither URL configured every status report is a local tracker
write. -/
theorem c10_worker_status_routing (env : DataGenEnv) (w : DataGenWorld)
    (bot user token : String) :
    (∀ u, env.event_url = some u → w.triggerResult = Except.ok () →
      parse_document_and_generate_training_data env w bot user token =
        [GenEffect.triggeredEvent bot user token]) ∧
    (∀ u e, env.event_url = some u → w.triggerResult = Except.error e →
      parse_document_and_generate_training_data env w bot user token =
        [GenEffect.setStatus bot user TDGStatus.FAIL none (some e)]) ∧
    (∀ k, env.event_url = none → env.kairon_url = some k →
      ∀ eff ∈ parse_document_and_generate_training_data env w bot user token,
        isLocalSetStatus eff = false ∧
        (isStatusReport eff = true → putUrl eff = some (urljoin k statusPath))) ∧
    (env.event_url = none → env.kairon_url = none →
      ∀ eff ∈ parse_document_and_generate_training_data env w bot user token,
        isStatusReport eff = true → isLocalSetStatus eff = true) := by
  refine ⟨?_, ?_, ?_, ?_⟩
  · intro u hu ht
    simp [parse_document_and_generate_training_data, runTryBody, hu, ht]
  · intro u e hu ht
    simp [parse_document_and_generate_training_data, runTryBody, failReport, hu, ht]
  · intro k he hk eff heff
    cases hf : w.fetchResult with
    | error e =>
        simp [parse_document_and_generate_training_data, runTryBody, inProgressReport,
          failReport, he, hk, hf] at heff
        rcases heff with rfl | rfl <;>
          simp [isLocalSetStatus, isStatusReport, putUrl]
    | ok docPath =>
        cases hp : w.parseResult docPath with
        | error e =>
            simp [parse_document_and_generate_training_data, runTryBody, inProgressReport,
              failReport, he, hk, hf, hp] at heff
            rcases heff with rfl | rfl <;>
              simp [isLocalSetStatus, isStatusReport, putUrl]
        | ok parsed =>
            cases hg : w.generateResult parsed with
            | error e =>
                simp [parse_document_and_generate_training_data, runTryBody,
                  inProgressReport, failReport, he, hk, hf, hp, hg] at heff
                rcases heff with rfl | rfl | rfl <;>
                  simp [isLocalSetStatus, isStatusReport, putUrl]
            | ok td =>
                simp [parse_document_and_generate_training_data, runTryBody,
                  inProgressReport, completedReport, he, hk, hf, hp, hg] at heff
                rcases heff with rfl | rfl | rfl <;>
                  simp [isLocalSetStatus, isStatusReport, putUrl]
  · intro he hk eff heff
    cases hf : w.fetchResult with
    | error e =>
        simp [parse_document_and_generate_training_data, runTryBody, inProgressReport,
          failReport, he, hk, hf] at heff
        rcases heff with rfl | rfl <;>
          simp [isLocalSetStatus, isStatusReport]
    | ok docPath =>
        cases hp : w.parseResult docPath with
        | error e =>
            simp [parse_document_and_generate_training_data, runTryBody, inProgressReport,
              failReport, he, hk, hf, hp] at heff
            rcases heff with rfl | rfl <;>
              simp [isLocalSetStatus, isStatusReport]
        | ok parsed =>
            cases hg : w.generateResult parsed with
            | error e =>
                simp [parse_document_and_generate_training_data, runTryBody,
                  inProgressReport, failReport, he, hk, hf, hp, hg] at heff
                rcases heff with rfl | rfl | rfl <;>
                  simp [isLocalSetStatus, isStatusReport]
            | ok td =>
                simp [parse_document_and_generate_training_data, runTryBody,
                  inProgressReport, completedReport, he, hk, hf, hp, hg] at heff
                rcases heff with rfl | rfl | rfl <;>
                  simp [isLocalSetStatus, isStatusReport]

/-- Witness for C10: with an event_url and a successful trigger the run
consists of exactly the external trigger, and with a kairon_url the
InProgress report of a run is an HTTP PUT, never a local write. -/
theorem c10_worker_status_routing_witness :
    parse_document_and_generate_training_data ⟨some "http://event.url", none⟩ okWorld
        "b" "u" "t" = [GenEffect.triggeredEvent "b" "u" "t"] ∧
    isLocalSetStatus
      (GenEffect.httpPut (urljoin "http://kairon" statusPath)
        ⟨TDGStatus.INPROGRESS, none, none⟩) = false := by
  have h1 := (c10_worker_status_routing ⟨some "http://event.url", none⟩ okWorld
    "b" "u" "t").1 "http://event.url" rfl rfl
  have hmem : GenEffect.httpPut (urljoin "http://kairon" statusPath)
      ⟨TDGStatus.INPROGRESS, none, none⟩ ∈
      parse_document_and_generate_training_data ⟨none, some "http://kairon"⟩ okWorld
        "b" "u" "t" := List.mem_cons_self _ _
  have h2 := ((c10_worker_status_routing ⟨none, some "http://kairon"⟩ okWorld
    "b" "u" "t").2.2.1 "http://kairon" rfl rfl _ hmem).1
  exact ⟨h1, h2⟩

end Kairon
